import Mathlib

/-!
Shallow embedding of the optidash-node client library.

The repository has two executable source files:
  * `lib/operations.js` — a fluent builder mutating an options record and
    three terminal sinks (`toJSON`, `toFile`, `toBuffer`) that dispatch via
    the client;
  * `lib/client.js` — `sendRequest(options, cb)`, which performs pre-flight
    validation, assembles the upload or fetch transport, and wires the JSON
    or binary response handling, invoking the callback exactly once via the
    `once` wrapper and explicit `cb.called` guards.

The embedding models JavaScript values with `JVal`, the builder options
record with `Options`, and the asynchronous part of `sendRequest` as a fold
of the registered event handlers over an explicit list of underlying events
(`Ev`).  The dispatch state `DState` carries the once-guard flag
(`called`), the parsed metadata, the sink wiring flags, the accumulated
body chunks, the list of callback invocations and the list of observable
side effects (`Action`).
-/

set_option linter.unusedVariables false

namespace Optidash

/-- JavaScript values, to the depth the library inspects them. -/
inductive JVal where
  | null
  | undefined
  | bool (b : Bool)
  | num (n : Int)
  | str (s : String)
  | obj (fields : List (String × JVal))

/-- The JavaScript `typeof` operator on the embedded values
(`typeof null` is famously `"object"`). -/
def jsTypeof : JVal → String
  | JVal.null => "object"
  | JVal.undefined => "undefined"
  | JVal.bool _ => "boolean"
  | JVal.num _ => "number"
  | JVal.str _ => "string"
  | JVal.obj _ => "object"

/-- JavaScript truthiness of an embedded value. -/
def truthy : JVal → Bool
  | JVal.null => false
  | JVal.undefined => false
  | JVal.bool b => b
  | JVal.num n => n != 0
  | JVal.str s => !s.isEmpty
  | JVal.obj _ => true

/-- Strict equality test against the literal `false`
(the `meta.success === false` check of the client). -/
def isFalseVal : JVal → Bool
  | JVal.bool b => !b
  | _ => false

/-- Property read on an association list of object fields; a missing
property reads as `undefined`, as in JavaScript. -/
def getKey (l : List (String × JVal)) (k : String) : JVal :=
  match l.find? (fun p => p.1 == k) with
  | some p => p.2
  | none => JVal.undefined

/-- Property read on an embedded object value. -/
def getField (v : JVal) (k : String) : JVal :=
  match v with
  | JVal.obj fs => getKey fs k
  | _ => JVal.undefined

/-- Property write on an association list of object fields
(overwrites the key in place, appends otherwise). -/
def setKey (k : String) (v : JVal) : List (String × JVal) → List (String × JVal)
  | [] => [(k, v)]
  | (k', v') :: rest => if k' == k then (k, v) :: rest else (k', v') :: setKey k v rest

/-- The argument passed to `upload(file)`: a file path string, an open
readable stream, a Node `Buffer`, or any other JavaScript value. -/
inductive UploadArg where
  | path (s : String)
  | rstream
  | buffer (bytes : List Nat)
  | invalid
deriving DecidableEq

/-- The destination argument of `toFile(file, cb)`: a path string, a
writable stream, or anything else. -/
inductive DestArg where
  | path (s : String)
  | wstream
  | invalid
deriving DecidableEq

/-- The mutable `this.options` record built by the fluent interface and
consumed by `client.sendRequest`. -/
structure Options where
  key : String
  request : List (String × JVal)
  errorMessage : Option String
  withUpload : Bool
  withFetch : Bool
  file : Option UploadArg
  toJSON : Bool
  toFile : Bool
  toBuffer : Bool
  outputFile : Option DestArg
  proxy : Option String

/-- The options record created by the `Optidash(key)` constructor:
`{ key: key, request: {} }`. -/
def freshOptions (key : String) : Options :=
  { key := key, request := [], errorMessage := none, withUpload := false,
    withFetch := false, file := none, toJSON := false, toFile := false,
    toBuffer := false, outputFile := none, proxy := none }

/-! ### Error message strings of the builder and the client -/

def uploadShapeMsg : String :=
  "Optidash upload(string|stream) method requires a valid file path or a stream passed as an argument"

def oneInputMsg : String :=
  "Optidash only accepts one file input method per call: upload(string|stream) or fetch(string)"

def fetchShapeMsg : String :=
  "Optidash fetch(string) method requires a valid file URL passed as an argument"

def toJSONCbMsg : String :=
  "Optidash toJSON(fn) method requires a callback function"

def oneSinkMsg : String :=
  "Optidash only accepts one response method per call: toJSON(fn), toFile(string|stream, fn) or toBuffer(fn)"

def noInputMsg : String :=
  "No file input has been specified: upload(string|stream) or fetch(string)"

def toFileCbMsg : String :=
  "Optidash toFile(string|stream, fn) method requires a callback function as a second parameter"

def toFileShapeMsg : String :=
  "Optidash toFile(string|stream, fn) method requires a file path or a stream as a first parameter"

def toFileWebhookMsg : String :=
  "Binary responses with toFile(string|stream, fn) method are not supported when using Webhooks"

def toFileStoreMsg : String :=
  "Binary responses with toFile(string|stream, fn) method are not supported when using External Storage"

def toBufferCbMsg : String :=
  "Optidash toBuffer(fn) method requires a callback function"

def toBufferWebhookMsg : String :=
  "Binary responses with toBuffer(fn) method are not supported when using Webhooks"

def toBufferStoreMsg : String :=
  "Binary responses with toBuffer(fn) method are not supported when using External Storage"

def parseMsg : String :=
  "Unable to parse JSON response from the Optidash API"

/-! ### Builder methods (lib/operations.js) -/

/-- `upload(file)`: shape check, mutual-exclusion check against a prior
`fetch`, then records the file and the `withUpload` flag unconditionally. -/
def upload (file : UploadArg) (o : Options) : Options :=
  let o1 := match file with
    | UploadArg.path _ => o
    | UploadArg.rstream => o
    | _ => { o with errorMessage := some uploadShapeMsg }
  let o2 := if o1.withFetch then { o1 with errorMessage := some oneInputMsg } else o1
  { o2 with file := some file, withUpload := true }

/-- `fetch(url)`: errors when the url is `undefined`, mutual-exclusion
check against a prior `upload`, then stores `request.url` and the
`withFetch` flag unconditionally. -/
def fetch (url : JVal) (o : Options) : Options :=
  let o1 := if jsTypeof url == "undefined"
    then { o with errorMessage := some fetchShapeMsg } else o
  let o2 := if o1.withUpload then { o1 with errorMessage := some oneInputMsg } else o1
  { o2 with request := setKey "url" url o2.request, withFetch := true }

/-- `proxy(proxy)`: stores the proxy only when given a string. -/
def proxy (p : JVal) (o : Options) : Options :=
  match p with
  | JVal.str s => { o with proxy := some s }
  | _ => o

/-- The common shape of every operation setter: store the parameter under
the operation key when `typeof data === "object"`, otherwise return the
builder unchanged. -/
def opSetter (k : String) (data : JVal) (o : Options) : Options :=
  if jsTypeof data == "object"
  then { o with request := setKey k data o.request }
  else o

def optimize : JVal → Options → Options := opSetter "optimize"
def flip : JVal → Options → Options := opSetter "flip"
def resize : JVal → Options → Options := opSetter "resize"
def scale : JVal → Options → Options := opSetter "scale"
def crop : JVal → Options → Options := opSetter "crop"
def watermark : JVal → Options → Options := opSetter "watermark"
def mask : JVal → Options → Options := opSetter "mask"
def filter : JVal → Options → Options := opSetter "filter"
def adjust : JVal → Options → Options := opSetter "adjust"
def auto : JVal → Options → Options := opSetter "auto"
def border : JVal → Options → Options := opSetter "border"
def padding : JVal → Options → Options := opSetter "padding"
def store : JVal → Options → Options := opSetter "store"
def output : JVal → Options → Options := opSetter "output"
def webhook : JVal → Options → Options := opSetter "webhook"
def cdn : JVal → Options → Options := opSetter "cdn"

/-- A thrown JavaScript exception. -/
inductive JsErr where
  | jsError (msg : String)
  | typeError (msg : String)
deriving DecidableEq

/-- The `response: { mode: "binary" }` object set by the binary sinks. -/
def binaryRespObj : JVal := JVal.obj [("mode", JVal.str "binary")]

/-- The option mutation performed by `toJSON(cb)` before it dispatches.
`cbValid` models `typeof cb === "function"`. -/
def toJSONOptions (cbValid : Bool) (o : Options) : Options :=
  let o1 := if !cbValid then { o with errorMessage := some toJSONCbMsg } else o
  let o2 := if o1.toFile || o1.toBuffer then { o1 with errorMessage := some oneSinkMsg } else o1
  let o3 := if !o2.withUpload && !o2.withFetch then { o2 with errorMessage := some noInputMsg } else o2
  { o3 with toJSON := true }

/-- The option mutation performed by `toFile(file, cb)` before it
dispatches.  A non-function callback is thrown synchronously; every other
configuration error is recorded in `errorMessage`. -/
def toFileOptions (dest : DestArg) (cbValid : Bool) (o : Options) : Except JsErr Options :=
  if !cbValid then Except.error (JsErr.jsError toFileCbMsg) else
  let o1 := match dest with
    | DestArg.path _ => o
    | DestArg.wstream => o
    | DestArg.invalid => { o with errorMessage := some toFileShapeMsg }
  let o2 := if o1.toJSON || o1.toBuffer then { o1 with errorMessage := some oneSinkMsg } else o1
  let o3 := if !o2.withUpload && !o2.withFetch then { o2 with errorMessage := some noInputMsg } else o2
  let o4 := if truthy (getKey o3.request "webhook") then { o3 with errorMessage := some toFileWebhookMsg } else o3
  let o5 := if truthy (getKey o4.request "store") then { o4 with errorMessage := some toFileStoreMsg } else o4
  Except.ok { o5 with request := setKey "response" binaryRespObj o5.request,
                      toFile := true, outputFile := some dest }

/-- The option mutation performed by `toBuffer(cb)` before it dispatches. -/
def toBufferOptions (cbValid : Bool) (o : Options) : Except JsErr Options :=
  if !cbValid then Except.error (JsErr.jsError toBufferCbMsg) else
  let o2 := if o.toJSON || o.toFile then { o with errorMessage := some oneSinkMsg } else o
  let o3 := if !o2.withUpload && !o2.withFetch then { o2 with errorMessage := some noInputMsg } else o2
  let o4 := if truthy (getKey o3.request "webhook") then { o3 with errorMessage := some toBufferWebhookMsg } else o3
  let o5 := if truthy (getKey o4.request "store") then { o4 with errorMessage := some toBufferStoreMsg } else o4
  Except.ok { o5 with request := setKey "response" binaryRespObj o5.request, toBuffer := true }

/-! ### Client (lib/client.js) -/

/-- Outcome of reading the `x-optidash-meta` response header: the header
value either parses as JSON (`json v`) or `JSON.parse` throws
(`malformed`).  This sum models the result of `JSON.parse` on the raw
header string. -/
inductive HeaderVal where
  | malformed
  | json (v : JVal)

/-- The observable part of an HTTP response object. -/
structure Resp where
  metaHeader : Option HeaderVal

/-- Underlying asynchronous events a dispatch can observe: upload-source
stream error, request error, response-header arrival, body data chunk,
body end, destination stream error, destination finish, and the
completion callback of the buffered JSON request. -/
inductive Ev where
  | fileErr (msg : String)
  | reqErr (msg : String)
  | response (r : Resp)
  | chunk (data : List Nat)
  | bodyEnd
  | wsErr (msg : String)
  | wsFinish
  | jsonDone (e : Option JVal) (body : JVal)

/-- One invocation of the user callback: the error argument (carrying the
value passed to the `Error` constructor), the metadata argument and the
payload argument; `none` marks an argument that was not passed. -/
structure CbCall where
  err : Option JVal
  meta : Option JVal
  payload : Option (List Nat)

/-- Observable side effects of a dispatch. -/
inductive Action where
  | httpPost (url : String)
  | openReadStream (path : String)
  | openWriteStream (path : String)
  | pipeToDest
deriving DecidableEq

/-- The state of one dispatch: the once-guard flag, the metadata parsed
from the response header, the sink wiring flags, the accumulated body
chunks, the callback invocations and the side effects so far. -/
structure DState where
  called : Bool
  meta : JVal
  piping : Bool
  buffering : Bool
  buff : List (List Nat)
  calls : List CbCall
  actions : List Action

def initState : DState :=
  { called := false, meta := JVal.obj [], piping := false, buffering := false,
    buff := [], calls := [], actions := [] }

/-- Invoke the once-wrapped callback: a no-op when it has already been
called, otherwise record the invocation and set the guard.  This models
both the `once(cb)` wrapper and the explicit `!cb.called` checks, whose
effects coincide. -/
def fire (st : DState) (c : CbCall) : DState :=
  if st.called then st
  else { st with called := true, calls := st.calls ++ [c] }

/-- The dispatch state after the pre-flight `options.errorMessage`
failure: a single error callback and no side effects. -/
def errorOnlyResult (m : String) : DState :=
  { initState with called := true,
                   calls := [{ err := some (JVal.str m), meta := none, payload := none }] }

/-- The write-stream opening performed by the `toFile` wiring: a path
destination is opened with `fs.createWriteStream`, a provided stream is
used as is. -/
def wsActions (o : Options) : List Action :=
  match o.outputFile with
  | some (DestArg.path p) => [Action.openWriteStream p]
  | _ => []

/-- The response handler after the metadata assignment: the
`meta.success === false` pre-check, then the `toFile` piping and the
`toBuffer` accumulation wiring. -/
def afterMeta (o : Options) (st : DState) : DState :=
  if isFalseVal (getField st.meta "success") && !st.called then
    fire st { err := some (getField st.meta "message"), meta := some st.meta, payload := none }
  else
    let st1 := if o.toFile then
        { st with piping := true,
                  actions := st.actions ++ wsActions o ++ [Action.pipeToDest] }
      else st
    if o.toBuffer then { st1 with buffering := true } else st1

/-- The `req.on("response")` handler: parse the `x-optidash-meta` header
(missing header means empty metadata; an unparsable header fires a parse
error when the callback is still available), then run the pre-check and
the sink wiring. -/
def respondStep (o : Options) (st : DState) (r : Resp) : DState :=
  match r.metaHeader with
  | some HeaderVal.malformed =>
      if !st.called then
        fire st { err := some (JVal.str parseMsg), meta := none, payload := none }
      else afterMeta o { st with meta := JVal.obj [] }
  | some (HeaderVal.json v) => afterMeta o { st with meta := v }
  | none => afterMeta o { st with meta := JVal.obj [] }

/-- Event handlers registered on the binary (`toFile` / `toBuffer`) code
path of `sendRequest`. -/
def stepBinary (o : Options) (st : DState) : Ev → DState
  | Ev.fileErr m =>
      if o.withUpload then fire st { err := some (JVal.str m), meta := none, payload := none } else st
  | Ev.reqErr m => fire st { err := some (JVal.str m), meta := none, payload := none }
  | Ev.response r => respondStep o st r
  | Ev.chunk d => if st.buffering then { st with buff := st.buff ++ [d] } else st
  | Ev.bodyEnd =>
      if st.buffering then fire st { err := none, meta := some st.meta, payload := some st.buff.flatten } else st
  | Ev.wsErr m =>
      if st.piping then fire st { err := some (JVal.str m), meta := some st.meta, payload := none } else st
  | Ev.wsFinish =>
      if st.piping then fire st { err := none, meta := some st.meta, payload := none } else st
  | Ev.jsonDone _ _ => st

/-- Event handlers of the JSON (`toJSON`) code path: only the
upload-source stream error listener and the buffered request completion
callback exist. -/
def stepJSON (o : Options) (st : DState) : Ev → DState
  | Ev.fileErr m =>
      if o.withUpload then fire st { err := some (JVal.str m), meta := none, payload := none } else st
  | Ev.jsonDone e body =>
      if !st.called then
        if truthy body && truthy (getField body "message") then
          fire st { err := some (getField body "message"), meta := some body, payload := none }
        else
          fire st { err := e, meta := some body, payload := none }
      else st
  | _ => st

def uploadUrl : String := "https://api.optidash.ai/1.0/upload"
def fetchUrl : String := "https://api.optidash.ai/1.0/fetch"

def hexDigit (n : Nat) : Char :=
  if n < 10 then Char.ofNat (48 + n) else Char.ofNat (87 + n)

def hexString (bs : List Nat) : String :=
  String.mk (bs.foldr (fun b acc => hexDigit (b % 256 / 16) :: hexDigit (b % 16) :: acc) [])

/-- Method lookup on a Node `Buffer`: `toString` is its encoding method;
looking up any other name yields `none`, which is a `TypeError` at call
time in JavaScript.  The client source calls `.toSting("hex")`. -/
def bufferStringMethod : String → Option (List Nat → String → String)
  | "toString" => some (fun bs _enc => hexString bs)
  | _ => none

/-- Transport assembly of `sendRequest`: normalize the upload source (a
stream is used as is, a `Buffer` gets a filename from
`crypto.randomBytes(8).toSting("hex")`, anything else goes through
`fs.createReadStream`) and choose the upload or fetch endpoint.  Returns
the observable side effects, or the synchronously thrown exception. -/
def transportSetup (o : Options) (rand : List Nat) : Except JsErr (List Action) :=
  if o.withUpload then
    match o.file with
    | some UploadArg.rstream => Except.ok [Action.httpPost uploadUrl]
    | some (UploadArg.buffer _) =>
        match bufferStringMethod "toSting" with
        | some f =>
            let _filename := f rand "hex"
            Except.ok [Action.httpPost uploadUrl]
        | none => Except.error (JsErr.typeError "toSting is not a function")
    | some (UploadArg.path p) => Except.ok [Action.openReadStream p, Action.httpPost uploadUrl]
    | _ => Except.ok [Action.openReadStream "", Action.httpPost uploadUrl]
  else Except.ok [Action.httpPost fetchUrl]

/-- `client.sendRequest(options, cb)`: pre-flight `errorMessage` check,
transport assembly, then the JSON or binary response wiring applied to
the list of underlying events.  `rand` is the byte string produced by
`crypto.randomBytes(8)`. -/
def sendRequest (o : Options) (rand : List Nat) (evs : List Ev) : Except JsErr DState :=
  match o.errorMessage with
  | some m => Except.ok (errorOnlyResult m)
  | none =>
    match transportSetup o rand with
    | Except.error e => Except.error e
    | Except.ok acts =>
      let st0 : DState := { initState with actions := acts }
      if o.toJSON then Except.ok (evs.foldl (stepJSON o) st0)
      else Except.ok (evs.foldl (stepBinary o) st0)

/-- The final dispatch state; dispatches that throw synchronously are
mapped to the initial state (they never reach the event loop). -/
def runDispatch (o : Options) (rand : List Nat) (evs : List Ev) : DState :=
  match sendRequest o rand evs with
  | Except.ok st => st
  | Except.error _ => initState

/-- Whether the dispatch threw a synchronous exception. -/
def dispatchThrows (o : Options) (rand : List Nat) (evs : List Ev) : Bool :=
  match sendRequest o rand evs with
  | Except.error _ => true
  | Except.ok _ => false

/-- Whether a sink mutation threw. -/
def isThrow : Except JsErr Options → Bool
  | Except.error _ => true
  | Except.ok _ => false

/-- The options produced by a non-throwing sink mutation. -/
def optsOf : Except JsErr Options → Options
  | Except.ok o => o
  | Except.error _ => freshOptions ""

/-! ### Builder step sequences -/

/-- One chained builder call. -/
inductive BStep where
  | uploadStep (f : UploadArg)
  | fetchStep (u : JVal)
  | proxyStep (p : JVal)
  | opStep (k : String) (v : JVal)

def applyStep (o : Options) : BStep → Options
  | BStep.uploadStep f => upload f o
  | BStep.fetchStep u => fetch u o
  | BStep.proxyStep p => proxy p o
  | BStep.opStep k v => opSetter k v o

def applySteps (o : Options) (l : List BStep) : Options := l.foldl applyStep o

/-- The dispatch has a buffer upload source (the only source shape whose
transport assembly throws). -/
def hasBufferFile (o : Options) : Bool :=
  o.withUpload && (match o.file with
    | some (UploadArg.buffer _) => true
    | _ => false)

/-- The event trace contains an event that forces a callback invocation
for the given options: a pre-flight error, an upload-source stream error,
the completion of a buffered JSON request, a request error, or a response
followed by a destination finish or error (file sink) or by the body end
(buffer sink). -/
def Completing (o : Options) (evs : List Ev) : Prop :=
  o.errorMessage ≠ none
  ∨ (o.withUpload = true ∧ ∃ m, Ev.fileErr m ∈ evs)
  ∨ (o.toJSON = true ∧ ∃ e b, Ev.jsonDone e b ∈ evs)
  ∨ (o.toJSON = false ∧ ∃ m, Ev.reqErr m ∈ evs)
  ∨ (o.toJSON = false ∧ o.toFile = true ∧
      ∃ r l1 l2, evs = l1 ++ Ev.response r :: l2 ∧ (Ev.wsFinish ∈ l2 ∨ ∃ m, Ev.wsErr m ∈ l2))
  ∨ (o.toJSON = false ∧ o.toBuffer = true ∧
      ∃ r l1 l2, evs = l1 ++ Ev.response r :: l2 ∧ Ev.bodyEnd ∈ l2)

end Optidash

/-! ### Generic fold invariance -/

namespace Optidash

theorem foldl_pres {α : Type} {β : Type} {f : α → β → α} {P : α → Prop}
    (hf : ∀ a b, P a → P (f a b)) :
    ∀ (l : List β) (a : α), P a → P (l.foldl f a) := by
  intro l
  induction l with
  | nil => intro a h; exact h
  | cons x xs ih =>
      intro a h
      rw [List.foldl_cons]
      exact ih _ (hf _ _ h)

/-! ### Properties of the once-guarded callback -/

theorem fire_called (st : DState) (c : CbCall) : (fire st c).called = true := by
  unfold fire; split
  · next h => exact h
  · rfl

theorem fire_of_called {st : DState} (c : CbCall) (h : st.called = true) : fire st c = st := by
  unfold fire; simp [h]

theorem fire_of_not_called {st : DState} (c : CbCall) (h : st.called = false) :
    fire st c = { st with called := true, calls := st.calls ++ [c] } := by
  unfold fire; simp [h]

theorem fire_meta (st : DState) (c : CbCall) : (fire st c).meta = st.meta := by
  unfold fire; split <;> rfl

theorem fire_piping (st : DState) (c : CbCall) : (fire st c).piping = st.piping := by
  unfold fire; split <;> rfl

theorem fire_buffering (st : DState) (c : CbCall) : (fire st c).buffering = st.buffering := by
  unfold fire; split <;> rfl

theorem fire_buff (st : DState) (c : CbCall) : (fire st c).buff = st.buff := by
  unfold fire; split <;> rfl

theorem fire_actions (st : DState) (c : CbCall) : (fire st c).actions = st.actions := by
  unfold fire; split <;> rfl

/-- The single-fire invariant: the number of recorded callback
invocations matches the once-guard flag. -/
def CallInv (st : DState) : Prop :=
  st.calls.length = (if st.called then 1 else 0)

theorem fire_inv {st : DState} (c : CbCall) (h : CallInv st) : CallInv (fire st c) := by
  unfold CallInv at *
  by_cases hc : st.called
  · simp [fire_of_called c hc, hc] at *
    simpa [hc] using h
  · simp only [Bool.not_eq_true] at hc
    simp [fire_of_not_called c hc, hc] at *
    simp [h]

theorem afterMeta_inv {o : Options} {st : DState} (h : CallInv st) : CallInv (afterMeta o st) := by
  unfold afterMeta
  split
  · exact fire_inv _ h
  · unfold CallInv at *
    by_cases hf : o.toFile <;> by_cases hb : o.toBuffer <;> simp [hf, hb, h]

theorem respond_inv {o : Options} {st : DState} (r : Resp) (h : CallInv st) :
    CallInv (respondStep o st r) := by
  cases r with
  | mk mh =>
    cases mh with
    | none =>
        simp only [respondStep]
        exact afterMeta_inv (by simpa [CallInv] using h)
    | some hv =>
      cases hv with
      | malformed =>
          simp only [respondStep]
          split
          · exact fire_inv _ h
          · exact afterMeta_inv (by simpa [CallInv] using h)
      | json v =>
          simp only [respondStep]
          exact afterMeta_inv (by simpa [CallInv] using h)

theorem stepB_inv {o : Options} {st : DState} (e : Ev) (h : CallInv st) :
    CallInv (stepBinary o st e) := by
  cases e with
  | fileErr m =>
      simp only [stepBinary]
      split
      · exact fire_inv _ h
      · exact h
  | reqErr m => exact fire_inv _ h
  | response r => exact respond_inv r h
  | chunk d =>
      simp only [stepBinary]
      split
      · simpa [CallInv] using h
      · exact h
  | bodyEnd =>
      simp only [stepBinary]
      split
      · exact fire_inv _ h
      · exact h
  | wsErr m =>
      simp only [stepBinary]
      split
      · exact fire_inv _ h
      · exact h
  | wsFinish =>
      simp only [stepBinary]
      split
      · exact fire_inv _ h
      · exact h
  | jsonDone e b => exact h

theorem stepJ_inv {o : Options} {st : DState} (e : Ev) (h : CallInv st) :
    CallInv (stepJSON o st e) := by
  cases e with
  | fileErr m =>
      simp only [stepJSON]
      split
      · exact fire_inv _ h
      · exact h
  | jsonDone e b =>
      simp only [stepJSON]
      split
      · split
        · exact fire_inv _ h
        · exact fire_inv _ h
      · exact h
  | reqErr m => exact h
  | response r => exact h
  | chunk d => exact h
  | bodyEnd => exact h
  | wsErr m => exact h
  | wsFinish => exact h

end Optidash

/-! ### Monotonicity of the guard and of the sink wiring flags -/

namespace Optidash

theorem afterMeta_called_mono {o : Options} {st : DState} (h : st.called = true) :
    (afterMeta o st).called = true := by
  unfold afterMeta
  by_cases hf : o.toFile <;> by_cases hb : o.toBuffer <;> simp [h, hf, hb]

theorem respond_called_mono {o : Options} {st : DState} (r : Resp) (h : st.called = true) :
    (respondStep o st r).called = true := by
  cases r with
  | mk mh =>
    cases mh with
    | none => simp only [respondStep]; exact afterMeta_called_mono (by simpa using h)
    | some hv =>
      cases hv with
      | malformed =>
          simp only [respondStep]
          split
          · exact fire_called _ _
          · exact afterMeta_called_mono (by simpa using h)
      | json v => simp only [respondStep]; exact afterMeta_called_mono (by simpa using h)

theorem stepB_called_mono (o : Options) {st : DState} (e : Ev) (h : st.called = true) :
    (stepBinary o st e).called = true := by
  cases e with
  | response r => exact respond_called_mono r h
  | fileErr m => simp only [stepBinary]; split
                 · exact fire_called _ _
                 · exact h
  | reqErr m => exact fire_called _ _
  | chunk d => simp only [stepBinary]; split
               · simpa using h
               · exact h
  | bodyEnd => simp only [stepBinary]; split
               · exact fire_called _ _
               · exact h
  | wsErr m => simp only [stepBinary]; split
               · exact fire_called _ _
               · exact h
  | wsFinish => simp only [stepBinary]; split
                · exact fire_called _ _
                · exact h
  | jsonDone e b => exact h

theorem stepJ_called_mono (o : Options) {st : DState} (e : Ev) (h : st.called = true) :
    (stepJSON o st e).called = true := by
  cases e with
  | fileErr m => simp only [stepJSON]; split
                 · exact fire_called _ _
                 · exact h
  | jsonDone e b => simp only [stepJSON]; split
                    · split
                      · exact fire_called _ _
                      · exact fire_called _ _
                    · exact h
  | reqErr m => exact h
  | response r => exact h
  | chunk d => exact h
  | bodyEnd => exact h
  | wsErr m => exact h
  | wsFinish => exact h

theorem afterMeta_piping_mono {o : Options} {st : DState} (h : st.piping = true) :
    (afterMeta o st).piping = true := by
  unfold afterMeta
  split
  · exact (fire_piping _ _).trans h
  · by_cases hf : o.toFile <;> by_cases hb : o.toBuffer <;> simp [hf, hb, h]

theorem respond_piping_mono {o : Options} {st : DState} (r : Resp) (h : st.piping = true) :
    (respondStep o st r).piping = true := by
  cases r with
  | mk mh =>
    cases mh with
    | none => simp only [respondStep]; exact afterMeta_piping_mono (by simpa using h)
    | some hv =>
      cases hv with
      | malformed =>
          simp only [respondStep]
          split
          · exact (fire_piping _ _).trans h
          · exact afterMeta_piping_mono (by simpa using h)
      | json v => simp only [respondStep]; exact afterMeta_piping_mono (by simpa using h)

theorem stepB_piping_mono (o : Options) {st : DState} (e : Ev) (h : st.piping = true) :
    (stepBinary o st e).piping = true := by
  cases e with
  | response r => exact respond_piping_mono r h
  | fileErr m => simp only [stepBinary]; split
                 · exact (fire_piping _ _).trans h
                 · exact h
  | reqErr m => exact (fire_piping _ _).trans h
  | chunk d => simp only [stepBinary]; split
               · simpa using h
               · exact h
  | bodyEnd => simp only [stepBinary]; split
               · exact (fire_piping _ _).trans h
               · exact h
  | wsErr m => simp [stepBinary, h, fire_piping]
  | wsFinish => simp [stepBinary, h, fire_piping]
  | jsonDone e b => exact h

theorem afterMeta_buffering_mono {o : Options} {st : DState} (h : st.buffering = true) :
    (afterMeta o st).buffering = true := by
  unfold afterMeta
  split
  · exact (fire_buffering _ _).trans h
  · by_cases hf : o.toFile <;> by_cases hb : o.toBuffer <;> simp [hf, hb, h]

theorem respond_buffering_mono {o : Options} {st : DState} (r : Resp) (h : st.buffering = true) :
    (respondStep o st r).buffering = true := by
  cases r with
  | mk mh =>
    cases mh with
    | none => simp only [respondStep]; exact afterMeta_buffering_mono (by simpa using h)
    | some hv =>
      cases hv with
      | malformed =>
          simp only [respondStep]
          split
          · exact (fire_buffering _ _).trans h
          · exact afterMeta_buffering_mono (by simpa using h)
      | json v => simp only [respondStep]; exact afterMeta_buffering_mono (by simpa using h)

theorem stepB_buffering_mono (o : Options) {st : DState} (e : Ev) (h : st.buffering = true) :
    (stepBinary o st e).buffering = true := by
  cases e with
  | response r => exact respond_buffering_mono r h
  | fileErr m => simp only [stepBinary]; split
                 · exact (fire_buffering _ _).trans h
                 · exact h
  | reqErr m => exact (fire_buffering _ _).trans h
  | chunk d => simp [stepBinary, h]
  | bodyEnd => simp [stepBinary, h, fire_buffering]
  | wsErr m => simp only [stepBinary]; split
               · exact (fire_buffering _ _).trans h
               · exact h
  | wsFinish => simp only [stepBinary]; split
                · exact (fire_buffering _ _).trans h
                · exact h
  | jsonDone e b => exact h

end Optidash

/-! ### Events that force a callback invocation -/

namespace Optidash

theorem stepB_reqErr_fires (o : Options) (st : DState) (m : String) :
    (stepBinary o st (Ev.reqErr m)).called = true :=
  fire_called _ _

theorem stepB_fileErr_fires (o : Options) (st : DState) (m : String) (h : o.withUpload = true) :
    (stepBinary o st (Ev.fileErr m)).called = true := by
  simp only [stepBinary, h, if_true]
  exact fire_called _ _

theorem stepJ_fileErr_fires (o : Options) (st : DState) (m : String) (h : o.withUpload = true) :
    (stepJSON o st (Ev.fileErr m)).called = true := by
  simp only [stepJSON, h, if_true]
  exact fire_called _ _

theorem stepJ_jsonDone_fires (o : Options) (st : DState) (e : Option JVal) (b : JVal) :
    (stepJSON o st (Ev.jsonDone e b)).called = true := by
  simp only [stepJSON]
  split
  · split
    · exact fire_called _ _
    · exact fire_called _ _
  · next hc =>
      simp only [Bool.not_eq_true'] at hc
      simpa using hc

theorem stepB_wsFinish_fires (o : Options) {st : DState}
    (h : st.called = true ∨ st.piping = true) :
    (stepBinary o st Ev.wsFinish).called = true := by
  cases h with
  | inl h => exact stepB_called_mono o Ev.wsFinish h
  | inr h => simp [stepBinary, h, fire_called]

theorem stepB_wsErr_fires (o : Options) {st : DState} (m : String)
    (h : st.called = true ∨ st.piping = true) :
    (stepBinary o st (Ev.wsErr m)).called = true := by
  cases h with
  | inl h => exact stepB_called_mono o _ h
  | inr h => simp [stepBinary, h, fire_called]

theorem stepB_bodyEnd_fires (o : Options) {st : DState}
    (h : st.called = true ∨ st.buffering = true) :
    (stepBinary o st Ev.bodyEnd).called = true := by
  cases h with
  | inl h => exact stepB_called_mono o _ h
  | inr h => simp [stepBinary, h, fire_called]

/-! ### Response arrival wires the chosen sink (or fires) -/

theorem afterMeta_toFile_wired {o : Options} (st : DState) (hF : o.toFile = true) :
    (afterMeta o st).called = true ∨ (afterMeta o st).piping = true := by
  unfold afterMeta
  split
  · exact Or.inl (fire_called _ _)
  · right
    by_cases hb : o.toBuffer <;> simp [hF, hb]

theorem afterMeta_toBuffer_wired {o : Options} (st : DState) (hB : o.toBuffer = true) :
    (afterMeta o st).called = true ∨ (afterMeta o st).buffering = true := by
  unfold afterMeta
  split
  · exact Or.inl (fire_called _ _)
  · right
    by_cases hf : o.toFile <;> simp [hB, hf]

theorem respond_toFile_wired {o : Options} (st : DState) (r : Resp) (hF : o.toFile = true) :
    (respondStep o st r).called = true ∨ (respondStep o st r).piping = true := by
  cases r with
  | mk mh =>
    cases mh with
    | none => simp only [respondStep]; exact afterMeta_toFile_wired _ hF
    | some hv =>
      cases hv with
      | malformed =>
          simp only [respondStep]
          split
          · exact Or.inl (fire_called _ _)
          · exact afterMeta_toFile_wired _ hF
      | json v => simp only [respondStep]; exact afterMeta_toFile_wired _ hF

theorem respond_toBuffer_wired {o : Options} (st : DState) (r : Resp) (hB : o.toBuffer = true) :
    (respondStep o st r).called = true ∨ (respondStep o st r).buffering = true := by
  cases r with
  | mk mh =>
    cases mh with
    | none => simp only [respondStep]; exact afterMeta_toBuffer_wired _ hB
    | some hv =>
      cases hv with
      | malformed =>
          simp only [respondStep]
          split
          · exact Or.inl (fire_called _ _)
          · exact afterMeta_toBuffer_wired _ hB
      | json v => simp only [respondStep]; exact afterMeta_toBuffer_wired _ hB

end Optidash

/-! ### Fold-level consequences -/

namespace Optidash

theorem foldlB_called_mono (o : Options) (evs : List Ev) {st : DState} (h : st.called = true) :
    (evs.foldl (stepBinary o) st).called = true :=
  foldl_pres (P := fun s => s.called = true) (fun a b hp => stepB_called_mono o b hp) evs st h

theorem foldlJ_called_mono (o : Options) (evs : List Ev) {st : DState} (h : st.called = true) :
    (evs.foldl (stepJSON o) st).called = true :=
  foldl_pres (P := fun s => s.called = true) (fun a b hp => stepJ_called_mono o b hp) evs st h

theorem foldlB_inv (o : Options) (evs : List Ev) {st : DState} (h : CallInv st) :
    CallInv (evs.foldl (stepBinary o) st) :=
  foldl_pres (P := CallInv) (fun a b hp => stepB_inv b hp) evs st h

theorem foldlJ_inv (o : Options) (evs : List Ev) {st : DState} (h : CallInv st) :
    CallInv (evs.foldl (stepJSON o) st) :=
  foldl_pres (P := CallInv) (fun a b hp => stepJ_inv b hp) evs st h

/-- If some event of the trace fires the binary-path callback from any
state, the final state has a fired callback. -/
theorem foldlB_fire_of_mem (o : Options) {e : Ev} {evs : List Ev} (hmem : e ∈ evs)
    (hfire : ∀ st : DState, (stepBinary o st e).called = true) (st : DState) :
    (evs.foldl (stepBinary o) st).called = true := by
  obtain ⟨l1, l2, rfl⟩ := List.append_of_mem hmem
  rw [List.foldl_append, List.foldl_cons]
  exact foldlB_called_mono o l2 (hfire _)

theorem foldlJ_fire_of_mem (o : Options) {e : Ev} {evs : List Ev} (hmem : e ∈ evs)
    (hfire : ∀ st : DState, (stepJSON o st e).called = true) (st : DState) :
    (evs.foldl (stepJSON o) st).called = true := by
  obtain ⟨l1, l2, rfl⟩ := List.append_of_mem hmem
  rw [List.foldl_append, List.foldl_cons]
  exact foldlJ_called_mono o l2 (hfire _)

theorem foldlB_cp_mono (o : Options) (evs : List Ev) {st : DState}
    (h : st.called = true ∨ st.piping = true) :
    (evs.foldl (stepBinary o) st).called = true ∨ (evs.foldl (stepBinary o) st).piping = true :=
  foldl_pres (P := fun s => s.called = true ∨ s.piping = true)
    (fun a b hp => hp.imp (stepB_called_mono o b) (stepB_piping_mono o b)) evs st h

theorem foldlB_cb_mono (o : Options) (evs : List Ev) {st : DState}
    (h : st.called = true ∨ st.buffering = true) :
    (evs.foldl (stepBinary o) st).called = true ∨ (evs.foldl (stepBinary o) st).buffering = true :=
  foldl_pres (P := fun s => s.called = true ∨ s.buffering = true)
    (fun a b hp => hp.imp (stepB_called_mono o b) (stepB_buffering_mono o b)) evs st h

/-- A response followed (eventually) by a destination finish or error
forces the callback on a file-sink dispatch. -/
theorem foldlB_file_chain (o : Options) (hF : o.toFile = true) (r : Resp) {l2 : List Ev}
    (hmem : Ev.wsFinish ∈ l2 ∨ ∃ m, Ev.wsErr m ∈ l2) (st : DState) :
    ((Ev.response r :: l2).foldl (stepBinary o) st).called = true := by
  rw [List.foldl_cons]
  have h1 : (stepBinary o st (Ev.response r)).called = true ∨
      (stepBinary o st (Ev.response r)).piping = true := respond_toFile_wired st r hF
  cases hmem with
  | inl hmem =>
      obtain ⟨a, b, rfl⟩ := List.append_of_mem hmem
      rw [List.foldl_append, List.foldl_cons]
      exact foldlB_called_mono o b (stepB_wsFinish_fires o (foldlB_cp_mono o a h1))
  | inr hmem =>
      obtain ⟨m, hmem⟩ := hmem
      obtain ⟨a, b, rfl⟩ := List.append_of_mem hmem
      rw [List.foldl_append, List.foldl_cons]
      exact foldlB_called_mono o b (stepB_wsErr_fires o m (foldlB_cp_mono o a h1))

/-- A response followed (eventually) by the body end forces the callback
on a buffer-sink dispatch. -/
theorem foldlB_buffer_chain (o : Options) (hB : o.toBuffer = true) (r : Resp) {l2 : List Ev}
    (hmem : Ev.bodyEnd ∈ l2) (st : DState) :
    ((Ev.response r :: l2).foldl (stepBinary o) st).called = true := by
  rw [List.foldl_cons]
  have h1 : (stepBinary o st (Ev.response r)).called = true ∨
      (stepBinary o st (Ev.response r)).buffering = true := respond_toBuffer_wired st r hB
  obtain ⟨a, b, rfl⟩ := List.append_of_mem hmem
  rw [List.foldl_append, List.foldl_cons]
  exact foldlB_called_mono o b (stepB_bodyEnd_fires o (foldlB_cb_mono o a h1))

/-! ### Transport assembly facts -/

theorem transportSetup_ok {o : Options} (rand : List Nat) (h : hasBufferFile o = false) :
    ∃ acts, transportSetup o rand = Except.ok acts := by
  unfold transportSetup
  by_cases hu : o.withUpload
  · simp only [hu, if_true]
    cases hf : o.file with
    | none => exact ⟨_, rfl⟩
    | some a =>
        cases a with
        | path p => exact ⟨_, rfl⟩
        | rstream => exact ⟨_, rfl⟩
        | invalid => exact ⟨_, rfl⟩
        | buffer bs =>
            exfalso
            simp [hasBufferFile, hu, hf] at h
  · simp [hu]

theorem transportSetup_no_pipe {o : Options} {rand : List Nat} {acts : List Action}
    (h : transportSetup o rand = Except.ok acts) : Action.pipeToDest ∉ acts := by
  unfold transportSetup at h
  by_cases hu : o.withUpload
  · simp only [hu, if_true] at h
    cases hf : o.file with
    | none => rw [hf] at h; simp at h; simp [← h]
    | some a =>
        cases a with
        | path p => rw [hf] at h; simp at h; simp [← h]
        | rstream => rw [hf] at h; simp at h; simp [← h]
        | invalid => rw [hf] at h; simp at h; simp [← h]
        | buffer bs => rw [hf] at h; simp [bufferStringMethod] at h
  · simp only [hu, if_false] at h
    simp at h
    simp [← h]

end Optidash

/-! ### Reduction lemmas for sendRequest -/

namespace Optidash

theorem sendRequest_err {o : Options} {m : String} (rand : List Nat) (evs : List Ev)
    (hm : o.errorMessage = some m) :
    sendRequest o rand evs = Except.ok (errorOnlyResult m) := by
  unfold sendRequest
  rw [hm]

theorem sendRequest_json {o : Options} {rand : List Nat} {acts : List Action} (evs : List Ev)
    (hm : o.errorMessage = none) (hj : o.toJSON = true)
    (ht : transportSetup o rand = Except.ok acts) :
    sendRequest o rand evs =
      Except.ok (evs.foldl (stepJSON o) { initState with actions := acts }) := by
  unfold sendRequest
  rw [hm, ht]
  simp [hj]

theorem sendRequest_bin {o : Options} {rand : List Nat} {acts : List Action} (evs : List Ev)
    (hm : o.errorMessage = none) (hj : o.toJSON = false)
    (ht : transportSetup o rand = Except.ok acts) :
    sendRequest o rand evs =
      Except.ok (evs.foldl (stepBinary o) { initState with actions := acts }) := by
  unfold sendRequest
  rw [hm, ht]
  simp [hj]

theorem sendRequest_throws {o : Options} {rand : List Nat} {e : JsErr} (evs : List Ev)
    (hm : o.errorMessage = none) (ht : transportSetup o rand = Except.error e) :
    sendRequest o rand evs = Except.error e := by
  unfold sendRequest
  rw [hm, ht]

theorem errorOnlyResult_inv (m : String) : CallInv (errorOnlyResult m) := by
  simp [CallInv, errorOnlyResult, initState]

theorem initState_inv (acts : List Action) : CallInv { initState with actions := acts } := by
  simp [CallInv, initState]

theorem sendRequest_inv {o : Options} {rand : List Nat} {evs : List Ev} {st : DState}
    (h : sendRequest o rand evs = Except.ok st) : CallInv st := by
  cases hm : o.errorMessage with
  | some m =>
      rw [sendRequest_err rand evs hm] at h
      injection h with h2
      rw [← h2]
      exact errorOnlyResult_inv m
  | none =>
      cases ht : transportSetup o rand with
      | error e =>
          rw [sendRequest_throws evs hm ht] at h
          cases h
      | ok acts =>
          by_cases hj : o.toJSON
          · rw [sendRequest_json evs hm hj ht] at h
            injection h with h2
            rw [← h2]
            exact foldlJ_inv o evs (initState_inv acts)
          · rw [sendRequest_bin evs hm (by simpa using hj) ht] at h
            injection h with h2
            rw [← h2]
            exact foldlB_inv o evs (initState_inv acts)

end Optidash

/-! ### A completing trace forces the callback -/

namespace Optidash

theorem completing_fires_json {o : Options} {evs : List Ev} (hj : o.toJSON = true)
    (hm : o.errorMessage = none) (hC : Completing o evs) (st : DState) :
    (evs.foldl (stepJSON o) st).called = true := by
  rcases hC with h | ⟨hu, m, hmem⟩ | ⟨_, e, b, hmem⟩ | ⟨hjf, _⟩ | ⟨hjf, _⟩ | ⟨hjf, _⟩
  · exact absurd hm h
  · exact foldlJ_fire_of_mem o hmem (fun s => stepJ_fileErr_fires o s m hu) st
  · exact foldlJ_fire_of_mem o hmem (fun s => stepJ_jsonDone_fires o s e b) st
  · rw [hj] at hjf; cases hjf
  · rw [hj] at hjf; cases hjf
  · rw [hj] at hjf; cases hjf

theorem completing_fires_bin {o : Options} {evs : List Ev} (hj : o.toJSON = false)
    (hm : o.errorMessage = none) (hC : Completing o evs) (st : DState) :
    (evs.foldl (stepBinary o) st).called = true := by
  rcases hC with h | ⟨hu, m, hmem⟩ | ⟨hjt, _⟩ | ⟨_, m, hmem⟩ |
    ⟨_, hF, r, l1, l2, rfl, hmem⟩ | ⟨_, hB, r, l1, l2, rfl, hmem⟩
  · exact absurd hm h
  · exact foldlB_fire_of_mem o hmem (fun s => stepB_fileErr_fires o s m hu) st
  · rw [hj] at hjt; cases hjt
  · exact foldlB_fire_of_mem o hmem (fun s => stepB_reqErr_fires o s m) st
  · rw [List.foldl_append]
    exact foldlB_file_chain o hF r hmem _
  · rw [List.foldl_append]
    exact foldlB_buffer_chain o hB r hmem _

end Optidash

/-! ### Claim C1 -/

namespace Optidash

/-- Claim C1: for every dispatch and every combination and ordering of
underlying events (pre-flight configuration error, request error,
upload-source stream error, response arrival, metadata parse failure,
destination stream error or finish, body end), the user callback is
invoked exactly once — at most once on any event trace, and exactly once
whenever the trace contains a completing event; no code path invokes it a
second time after a terminal invocation. -/
theorem C1_callback_exactly_once (o : Options) (rand : List Nat) (evs : List Ev) :
    (runDispatch o rand evs).calls.length ≤ 1 ∧
    (Completing o evs → hasBufferFile o = false →
      dispatchThrows o rand evs = false ∧ (runDispatch o rand evs).calls.length = 1) := by
  constructor
  · unfold runDispatch
    cases hE : sendRequest o rand evs with
    | error e => simp [initState]
    | ok st =>
        have hi := sendRequest_inv hE
        unfold CallInv at hi
        dsimp only
        rw [hi]
        by_cases hc : st.called <;> simp [hc]
  · intro hC hB
    cases hm : o.errorMessage with
    | some m =>
        have hE := sendRequest_err (o := o) rand evs hm
        constructor
        · unfold dispatchThrows
          rw [hE]
        · unfold runDispatch
          rw [hE]
          simp [errorOnlyResult, initState]
    | none =>
        obtain ⟨acts, ht⟩ := transportSetup_ok (o := o) rand hB
        by_cases hj : o.toJSON
        · have hE := sendRequest_json evs hm hj ht
          have hcalled := completing_fires_json hj hm hC { initState with actions := acts }
          have hinv := foldlJ_inv o evs (initState_inv acts)
          unfold CallInv at hinv
          constructor
          · unfold dispatchThrows
            rw [hE]
          · unfold runDispatch
            rw [hE]
            dsimp only
            rw [hinv, hcalled]
            rfl
        · have hjf : o.toJSON = false := by simpa using hj
          have hE := sendRequest_bin evs hm hjf ht
          have hcalled := completing_fires_bin hjf hm hC { initState with actions := acts }
          have hinv := foldlB_inv o evs (initState_inv acts)
          unfold CallInv at hinv
          constructor
          · unfold dispatchThrows
            rw [hE]
          · unfold runDispatch
            rw [hE]
            dsimp only
            rw [hinv, hcalled]
            rfl

/-- Witness for C1 at a concrete dispatch: a `toJSON` call on a fresh
builder (whose pre-flight error completes the dispatch immediately). -/
theorem C1_witness :
    (runDispatch (toJSONOptions true (freshOptions "key")) [] []).calls.length ≤ 1 ∧
    (dispatchThrows (toJSONOptions true (freshOptions "key")) [] [] = false ∧
      (runDispatch (toJSONOptions true (freshOptions "key")) [] []).calls.length = 1) :=
  ⟨(C1_callback_exactly_once (toJSONOptions true (freshOptions "key")) [] []).1,
   (C1_callback_exactly_once (toJSONOptions true (freshOptions "key")) [] []).2
     (Or.inl (by decide)) (by decide)⟩

/-! ### Claim C2 -/

/-- Claim C2: whenever the options carry a deferred `errorMessage`, the
dispatch invokes the callback once with an error carrying exactly that
message and performs no side effect at all — no HTTP request, no file
I/O — for any event trace. -/
theorem C2_preflight_error (o : Options) (rand : List Nat) (evs : List Ev) (m : String)
    (hm : o.errorMessage = some m) :
    sendRequest o rand evs = Except.ok (errorOnlyResult m) ∧
    (errorOnlyResult m).calls = [{ err := some (JVal.str m), meta := none, payload := none }] ∧
    (errorOnlyResult m).actions = [] :=
  ⟨sendRequest_err rand evs hm, rfl, rfl⟩

/-- Witness for C2: a concrete options record with a deferred error. -/
theorem C2_witness :
    sendRequest { freshOptions "k" with errorMessage := some "boom" } [] [] =
      Except.ok (errorOnlyResult "boom") ∧
    (errorOnlyResult "boom").calls =
      [{ err := some (JVal.str "boom"), meta := none, payload := none }] ∧
    (errorOnlyResult "boom").actions = [] :=
  C2_preflight_error { freshOptions "k" with errorMessage := some "boom" } [] [] "boom" rfl

end Optidash

/-! ### Claim C3 -/

namespace Optidash

/-- Claim C3 (counterexample to the claim as stated): a JSON-sink dispatch
whose body has `success: true` but carries a `message` field still
produces an error derived from the body — the client keys the error on
the presence of a truthy `message` field, not on the `success` flag. -/
theorem C3_counterexample :
    getField (JVal.obj [("success", JVal.bool true), ("message", JVal.str "ok")]) "success"
      = JVal.bool true ∧
    (runDispatch (toJSONOptions true (fetch (JVal.str "u") (freshOptions "k"))) []
        [Ev.jsonDone none (JVal.obj [("success", JVal.bool true), ("message", JVal.str "ok")])]).calls
      = [{ err := some (JVal.str "ok"),
           meta := some (JVal.obj [("success", JVal.bool true), ("message", JVal.str "ok")]),
           payload := none }] :=
  ⟨rfl, rfl⟩

/-- Claim C3 (amended): on a JSON-sink dispatch the callback receives an
error whose message is the body `message` field, together with the full
body as metadata, exactly when the body and its `message` field are
truthy (regardless of the `success` flag); otherwise it receives the
transport error and the body. -/
theorem C3_json_body_error (o : Options) (rand : List Nat) (e : Option JVal) (body : JVal)
    (hj : o.toJSON = true) (hm : o.errorMessage = none) (hbf : hasBufferFile o = false) :
    dispatchThrows o rand [Ev.jsonDone e body] = false ∧
    (runDispatch o rand [Ev.jsonDone e body]).calls =
      [ if truthy body && truthy (getField body "message") then
          { err := some (getField body "message"), meta := some body, payload := none }
        else { err := e, meta := some body, payload := none } ] := by
  obtain ⟨acts, ht⟩ := transportSetup_ok (o := o) rand hbf
  have hE := sendRequest_json [Ev.jsonDone e body] hm hj ht
  constructor
  · unfold dispatchThrows
    rw [hE]
  · unfold runDispatch
    rw [hE]
    dsimp only
    rw [List.foldl_cons, List.foldl_nil]
    simp only [stepJSON, initState, fire]
    simp
    split <;> rename_i h <;> simp [h]

/-- Witness for the amended C3 at a concrete failing body. -/
theorem C3_witness :
    dispatchThrows (toJSONOptions true (fetch (JVal.str "u") (freshOptions "w"))) []
      [Ev.jsonDone none (JVal.obj [("success", JVal.bool false), ("message", JVal.str "bad input")])] = false ∧
    (runDispatch (toJSONOptions true (fetch (JVal.str "u") (freshOptions "w"))) []
      [Ev.jsonDone none (JVal.obj [("success", JVal.bool false), ("message", JVal.str "bad input")])]).calls =
      [ if truthy (JVal.obj [("success", JVal.bool false), ("message", JVal.str "bad input")]) &&
           truthy (getField (JVal.obj [("success", JVal.bool false), ("message", JVal.str "bad input")]) "message") then
          { err := some (getField (JVal.obj [("success", JVal.bool false), ("message", JVal.str "bad input")]) "message"),
            meta := some (JVal.obj [("success", JVal.bool false), ("message", JVal.str "bad input")]),
            payload := none }
        else { err := none,
               meta := some (JVal.obj [("success", JVal.bool false), ("message", JVal.str "bad input")]),
               payload := none } ] :=
  C3_json_body_error (toJSONOptions true (fetch (JVal.str "u") (freshOptions "w"))) []
    none (JVal.obj [("success", JVal.bool false), ("message", JVal.str "bad input")])
    rfl rfl rfl

end Optidash

/-! ### Frozen and stable state lemmas for the binary path -/

namespace Optidash

theorem afterMeta_meta {o : Options} (st : DState) : (afterMeta o st).meta = st.meta := by
  unfold afterMeta
  split
  · exact fire_meta _ _
  · by_cases hf : o.toFile <;> by_cases hb : o.toBuffer <;> simp [hf, hb]

theorem afterMeta_calls_of_notfail {o : Options} {st : DState}
    (h : isFalseVal (getField st.meta "success") = false) :
    (afterMeta o st).calls = st.calls := by
  unfold afterMeta
  rw [h]
  by_cases hf : o.toFile <;> by_cases hb : o.toBuffer <;> simp [hf, hb]

theorem stepB_frozen {o : Options} {st : DState} (e : Ev) (hc : st.called = true)
    (hp : st.piping = false) (hb : st.buffering = false) (hr : ∀ r, e ≠ Ev.response r) :
    stepBinary o st e = st := by
  cases e with
  | response r => exact absurd rfl (hr r)
  | fileErr m => simp [stepBinary, fire_of_called _ hc]
  | reqErr m => simp [stepBinary, fire_of_called _ hc]
  | chunk d => simp [stepBinary, hb]
  | bodyEnd => simp [stepBinary, hb]
  | wsErr m => simp [stepBinary, hp]
  | wsFinish => simp [stepBinary, hp]
  | jsonDone e b => rfl

theorem foldlB_frozen {o : Options} {st : DState} (l : List Ev) (hc : st.called = true)
    (hp : st.piping = false) (hb : st.buffering = false)
    (hr : ∀ r, Ev.response r ∉ l) :
    l.foldl (stepBinary o) st = st := by
  induction l with
  | nil => rfl
  | cons x xs ih =>
      rw [List.foldl_cons,
          stepB_frozen x hc hp hb (fun r hx => absurd (hx ▸ List.mem_cons_self x xs) (hr r))]
      exact ih (fun r hmem => hr r (List.mem_cons_of_mem _ hmem))

theorem stepB_meta_stable {o : Options} {st : DState} (e : Ev)
    (hr : ∀ r, e ≠ Ev.response r) :
    (stepBinary o st e).meta = st.meta := by
  cases e with
  | response r => exact absurd rfl (hr r)
  | fileErr m => simp only [stepBinary]; split
                 · exact fire_meta _ _
                 · rfl
  | reqErr m => exact fire_meta _ _
  | chunk d => simp only [stepBinary]; split
               · rfl
               · rfl
  | bodyEnd => simp only [stepBinary]; split
               · exact fire_meta _ _
               · rfl
  | wsErr m => simp only [stepBinary]; split
               · exact fire_meta _ _
               · rfl
  | wsFinish => simp only [stepBinary]; split
                · exact fire_meta _ _
                · rfl
  | jsonDone e b => rfl

theorem foldlB_meta_stable {o : Options} {st : DState} (l : List Ev)
    (hr : ∀ r, Ev.response r ∉ l) :
    (l.foldl (stepBinary o) st).meta = st.meta := by
  induction l generalizing st with
  | nil => rfl
  | cons x xs ih =>
      rw [List.foldl_cons]
      rw [ih (fun r hmem => hr r (List.mem_cons_of_mem _ hmem))]
      exact stepB_meta_stable x (fun r hx => absurd (hx ▸ List.mem_cons_self x xs) (hr r))

theorem foldlB_chunks (o : Options) (chunks : List (List Nat)) {st : DState}
    (hb : st.buffering = true) (hc : st.called = false) :
    (chunks.map Ev.chunk).foldl (stepBinary o) st = { st with buff := st.buff ++ chunks } := by
  induction chunks generalizing st with
  | nil => simp
  | cons c cs ih =>
      rw [List.map_cons, List.foldl_cons]
      have hstep : stepBinary o st (Ev.chunk c) = { st with buff := st.buff ++ [c] } := by
        simp [stepBinary, hb]
      rw [hstep, ih (by simpa using hb) (by simpa using hc)]
      simp

end Optidash

/-! ### Claim C4 -/

namespace Optidash

/-- Claim C4: on a binary dispatch the metadata pre-check runs strictly
before any body bytes reach the sink.  A missing `x-optidash-meta` header
yields the empty metadata object (and no callback from the response step
alone); an unparsable header fires the parse-error callback and nothing
is ever piped or buffered; metadata with `success === false` fires the
callback with that error and the metadata attached, and the body is never
piped or buffered, whatever body events follow. -/
theorem C4_meta_precheck (o : Options) (rand : List Nat) (r : Resp) (post : List Ev) (v : JVal)
    (hj : o.toJSON = false) (hm : o.errorMessage = none) (hbf : hasBufferFile o = false)
    (hnr : ∀ r', Ev.response r' ∉ post) :
    dispatchThrows o rand (Ev.response r :: post) = false ∧
    (r.metaHeader = none →
       (runDispatch o rand (Ev.response r :: post)).meta = JVal.obj [] ∧
       (runDispatch o rand [Ev.response r]).calls = []) ∧
    (r.metaHeader = some HeaderVal.malformed →
       (runDispatch o rand (Ev.response r :: post)).calls =
         [{ err := some (JVal.str parseMsg), meta := none, payload := none }] ∧
       Action.pipeToDest ∉ (runDispatch o rand (Ev.response r :: post)).actions ∧
       (runDispatch o rand (Ev.response r :: post)).buff = []) ∧
    (r.metaHeader = some (HeaderVal.json v) → isFalseVal (getField v "success") = true →
       (runDispatch o rand (Ev.response r :: post)).calls =
         [{ err := some (getField v "message"), meta := some v, payload := none }] ∧
       Action.pipeToDest ∉ (runDispatch o rand (Ev.response r :: post)).actions ∧
       (runDispatch o rand (Ev.response r :: post)).buff = []) := by
  obtain ⟨acts, ht⟩ := transportSetup_ok (o := o) rand hbf
  have hE := sendRequest_bin (Ev.response r :: post) hm hj ht
  have hE1 := sendRequest_bin [Ev.response r] hm hj ht
  have hnp := transportSetup_no_pipe ht
  refine ⟨by unfold dispatchThrows; rw [hE], ?_, ?_, ?_⟩
  · intro hr
    constructor
    · unfold runDispatch
      rw [hE]
      dsimp only
      rw [List.foldl_cons, foldlB_meta_stable post hnr]
      simp only [stepBinary, respondStep, hr]
      rw [afterMeta_meta]
    · unfold runDispatch
      rw [hE1]
      dsimp only
      rw [List.foldl_cons, List.foldl_nil]
      simp only [stepBinary, respondStep, hr]
      rw [afterMeta_calls_of_notfail (by simp [getField, getKey, isFalseVal])]
      simp [initState]
  · intro hr
    have h1 : stepBinary o { initState with actions := acts } (Ev.response r) =
        { initState with
            actions := acts,
            called := true,
            calls := [{ err := some (JVal.str parseMsg), meta := none, payload := none }] } := by
      simp [stepBinary, respondStep, hr, initState, fire]
    unfold runDispatch
    rw [hE]
    dsimp only
    rw [List.foldl_cons, h1,
        foldlB_frozen post (by simp) (by simp [initState]) (by simp [initState]) hnr]
    refine ⟨by simp, by simpa [initState] using hnp, by simp [initState]⟩
  · intro hr hs
    have h1 : stepBinary o { initState with actions := acts } (Ev.response r) =
        { initState with
            actions := acts,
            meta := v,
            called := true,
            calls := [{ err := some (getField v "message"), meta := some v, payload := none }] } := by
      simp [stepBinary, respondStep, hr, afterMeta, hs, initState, fire]
    unfold runDispatch
    rw [hE]
    dsimp only
    rw [List.foldl_cons, h1,
        foldlB_frozen post (by simp) (by simp [initState]) (by simp [initState]) hnr]
    refine ⟨by simp, by simpa [initState] using hnp, by simp [initState]⟩

/-- Witness for C4: a buffer-sink dispatch whose response carries an
unparsable metadata header, followed by body events that are ignored. -/
theorem C4_witness :
    dispatchThrows { freshOptions "k" with withFetch := true, toBuffer := true } []
      (Ev.response { metaHeader := some HeaderVal.malformed } :: [Ev.chunk [9], Ev.bodyEnd]) = false ∧
    ({ metaHeader := some HeaderVal.malformed : Resp }.metaHeader = none →
       (runDispatch { freshOptions "k" with withFetch := true, toBuffer := true } []
          (Ev.response { metaHeader := some HeaderVal.malformed } :: [Ev.chunk [9], Ev.bodyEnd])).meta = JVal.obj [] ∧
       (runDispatch { freshOptions "k" with withFetch := true, toBuffer := true } []
          [Ev.response { metaHeader := some HeaderVal.malformed }]).calls = []) ∧
    ({ metaHeader := some HeaderVal.malformed : Resp }.metaHeader = some HeaderVal.malformed →
       (runDispatch { freshOptions "k" with withFetch := true, toBuffer := true } []
          (Ev.response { metaHeader := some HeaderVal.malformed } :: [Ev.chunk [9], Ev.bodyEnd])).calls =
         [{ err := some (JVal.str parseMsg), meta := none, payload := none }] ∧
       Action.pipeToDest ∉ (runDispatch { freshOptions "k" with withFetch := true, toBuffer := true } []
          (Ev.response { metaHeader := some HeaderVal.malformed } :: [Ev.chunk [9], Ev.bodyEnd])).actions ∧
       (runDispatch { freshOptions "k" with withFetch := true, toBuffer := true } []
          (Ev.response { metaHeader := some HeaderVal.malformed } :: [Ev.chunk [9], Ev.bodyEnd])).buff = []) ∧
    ({ metaHeader := some HeaderVal.malformed : Resp }.metaHeader = some (HeaderVal.json JVal.null) →
       isFalseVal (getField JVal.null "success") = true →
       (runDispatch { freshOptions "k" with withFetch := true, toBuffer := true } []
          (Ev.response { metaHeader := some HeaderVal.malformed } :: [Ev.chunk [9], Ev.bodyEnd])).calls =
         [{ err := some (getField JVal.null "message"), meta := some JVal.null, payload := none }] ∧
       Action.pipeToDest ∉ (runDispatch { freshOptions "k" with withFetch := true, toBuffer := true } []
          (Ev.response { metaHeader := some HeaderVal.malformed } :: [Ev.chunk [9], Ev.bodyEnd])).actions ∧
       (runDispatch { freshOptions "k" with withFetch := true, toBuffer := true } []
          (Ev.response { metaHeader := some HeaderVal.malformed } :: [Ev.chunk [9], Ev.bodyEnd])).buff = []) :=
  C4_meta_precheck { freshOptions "k" with withFetch := true, toBuffer := true } []
    { metaHeader := some HeaderVal.malformed } [Ev.chunk [9], Ev.bodyEnd] JVal.null
    rfl rfl rfl (by simp)

end Optidash

/-! ### Claim C9 -/

namespace Optidash

/-- Claim C9: on a successful buffer-sink dispatch, body chunks are
accumulated in arrival order and concatenated on end-of-stream, and the
callback receives `(null, metadata, bytes)` where `bytes` is the
in-order concatenation of all chunks. -/
theorem C9_buffer_accumulation (o : Options) (rand : List Nat) (v : JVal) (r : Resp)
    (chunks : List (List Nat))
    (hj : o.toJSON = false) (hB : o.toBuffer = true) (hF : o.toFile = false)
    (hm : o.errorMessage = none) (hbf : hasBufferFile o = false)
    (hr : r.metaHeader = some (HeaderVal.json v))
    (hs : isFalseVal (getField v "success") = false) :
    dispatchThrows o rand (Ev.response r :: (chunks.map Ev.chunk ++ [Ev.bodyEnd])) = false ∧
    (runDispatch o rand (Ev.response r :: (chunks.map Ev.chunk ++ [Ev.bodyEnd]))).calls =
      [{ err := none, meta := some v, payload := some chunks.flatten }] := by
  obtain ⟨acts, ht⟩ := transportSetup_ok (o := o) rand hbf
  have hE := sendRequest_bin (Ev.response r :: (chunks.map Ev.chunk ++ [Ev.bodyEnd])) hm hj ht
  refine ⟨by unfold dispatchThrows; rw [hE], ?_⟩
  unfold runDispatch
  rw [hE]
  dsimp only
  rw [List.foldl_cons]
  have h1 : stepBinary o { initState with actions := acts } (Ev.response r) =
      { initState with actions := acts, meta := v, buffering := true } := by
    simp [stepBinary, respondStep, hr, afterMeta, hs, hF, hB, initState]
  rw [h1, List.foldl_append]
  rw [foldlB_chunks o chunks (by simp) (by simp [initState])]
  rw [List.foldl_cons, List.foldl_nil]
  simp [stepBinary, fire, initState]

/-- Witness for C9 at the concrete example of the specification: metadata
`{"success": true}` and body chunks `[1]`, `[2]`, `[3]`. -/
theorem C9_witness :
    dispatchThrows { freshOptions "k" with withFetch := true, toBuffer := true } []
      (Ev.response { metaHeader := some (HeaderVal.json (JVal.obj [("success", JVal.bool true)])) } ::
        ([[1],[2],[3]].map Ev.chunk ++ [Ev.bodyEnd])) = false ∧
    (runDispatch { freshOptions "k" with withFetch := true, toBuffer := true } []
      (Ev.response { metaHeader := some (HeaderVal.json (JVal.obj [("success", JVal.bool true)])) } ::
        ([[1],[2],[3]].map Ev.chunk ++ [Ev.bodyEnd]))).calls =
      [{ err := none, meta := some (JVal.obj [("success", JVal.bool true)]),
         payload := some ([[1],[2],[3]] : List (List Nat)).flatten }] :=
  C9_buffer_accumulation { freshOptions "k" with withFetch := true, toBuffer := true } []
    (JVal.obj [("success", JVal.bool true)])
    { metaHeader := some (HeaderVal.json (JVal.obj [("success", JVal.bool true)])) }
    [[1],[2],[3]] rfl rfl rfl rfl rfl rfl rfl

end Optidash

/-! ### Builder facts -/

namespace Optidash

theorem upload_withUpload (f : UploadArg) (o : Options) : (upload f o).withUpload = true := rfl

theorem fetch_withFetch (u : JVal) (o : Options) : (fetch u o).withFetch = true := rfl

theorem upload_err_of_withFetch (f : UploadArg) {o : Options} (h : o.withFetch = true) :
    (upload f o).errorMessage = some oneInputMsg := by
  cases f <;> simp [upload, h]

theorem fetch_err_of_withUpload (u : JVal) {o : Options} (h : o.withUpload = true) :
    (fetch u o).errorMessage = some oneInputMsg := by
  by_cases h1 : (jsTypeof u == "undefined") = true <;> simp [fetch, h1, h]

theorem applyStep_withUpload_mono (s : BStep) {o : Options} (h : o.withUpload = true) :
    (applyStep o s).withUpload = true := by
  cases s with
  | uploadStep f => exact upload_withUpload f o
  | fetchStep u => by_cases h1 : (jsTypeof u == "undefined") = true <;> simp [applyStep, fetch, h1, h]
  | proxyStep p => cases p <;> simp [applyStep, proxy, h]
  | opStep k v => by_cases h1 : (jsTypeof v == "object") = true <;> simp [applyStep, opSetter, h1, h]

theorem applyStep_withFetch_mono (s : BStep) {o : Options} (h : o.withFetch = true) :
    (applyStep o s).withFetch = true := by
  cases s with
  | uploadStep f => cases f <;> simp [applyStep, upload, h]
  | fetchStep u => exact fetch_withFetch u o
  | proxyStep p => cases p <;> simp [applyStep, proxy, h]
  | opStep k v => by_cases h1 : (jsTypeof v == "object") = true <;> simp [applyStep, opSetter, h1, h]

theorem applyStep_errSome_mono (s : BStep) {o : Options} (h : o.errorMessage.isSome = true) :
    (applyStep o s).errorMessage.isSome = true := by
  cases s with
  | uploadStep f =>
      cases f <;> by_cases h2 : o.withFetch <;> simp [applyStep, upload, h2, h]
  | fetchStep u =>
      by_cases h1 : (jsTypeof u == "undefined") = true <;> by_cases h2 : o.withUpload <;>
        simp [applyStep, fetch, h1, h2, h]
  | proxyStep p => cases p <;> simp [applyStep, proxy, h]
  | opStep k v => by_cases h1 : (jsTypeof v == "object") = true <;> simp [applyStep, opSetter, h1, h]

theorem foldl_withUpload_mono (l : List BStep) {o : Options} (h : o.withUpload = true) :
    (l.foldl applyStep o).withUpload = true :=
  foldl_pres (P := fun x => x.withUpload = true) (fun a b hp => applyStep_withUpload_mono b hp) l o h

theorem foldl_withFetch_mono (l : List BStep) {o : Options} (h : o.withFetch = true) :
    (l.foldl applyStep o).withFetch = true :=
  foldl_pres (P := fun x => x.withFetch = true) (fun a b hp => applyStep_withFetch_mono b hp) l o h

theorem foldl_errSome_mono (l : List BStep) {o : Options} (h : o.errorMessage.isSome = true) :
    (l.foldl applyStep o).errorMessage.isSome = true :=
  foldl_pres (P := fun x => x.errorMessage.isSome = true) (fun a b hp => applyStep_errSome_mono b hp) l o h

/-- Calling both input selectors, in either order and with arbitrary
other chained calls around them, always leaves a recorded configuration
error on the options. -/
theorem applySteps_both_inputs_err (o0 : Options) (L : List BStep) (f : UploadArg) (u : JVal)
    (hU : BStep.uploadStep f ∈ L) (hF : BStep.fetchStep u ∈ L) :
    (applySteps o0 L).errorMessage.isSome = true := by
  obtain ⟨l1, l2, rfl⟩ := List.append_of_mem hU
  unfold applySteps
  rcases List.mem_append.mp hF with hf1 | hf2
  · -- the fetch call precedes the upload call
    obtain ⟨a, b, rfl⟩ := List.append_of_mem hf1
    rw [List.foldl_append, List.foldl_append, List.foldl_cons, List.foldl_cons]
    apply foldl_errSome_mono
    have hwf : ((b.foldl applyStep (applyStep (a.foldl applyStep o0) (BStep.fetchStep u)))).withFetch = true :=
      foldl_withFetch_mono b (fetch_withFetch u _)
    have h5 := upload_err_of_withFetch f hwf
    simp only [applyStep] at h5 ⊢
    rw [h5]
    rfl
  · -- the upload call precedes the fetch call
    have hf2' : BStep.fetchStep u ∈ l2 := by
      rcases List.mem_cons.mp hf2 with h | h
      · cases h
      · exact h
    obtain ⟨a, b, rfl⟩ := List.append_of_mem hf2'
    rw [List.foldl_append, List.foldl_cons, List.foldl_append, List.foldl_cons]
    apply foldl_errSome_mono
    have hwu : ((a.foldl applyStep (applyStep (l1.foldl applyStep o0) (BStep.uploadStep f)))).withUpload = true :=
      foldl_withUpload_mono a (upload_withUpload f _)
    have h5 := fetch_err_of_withUpload u hwu
    simp only [applyStep] at h5 ⊢
    rw [h5]
    rfl

end Optidash

/-! ### The terminal sinks keep a recorded configuration error -/

namespace Optidash

theorem toJSONOptions_errSome (cb : Bool) {o : Options} (h : o.errorMessage.isSome = true) :
    (toJSONOptions cb o).errorMessage.isSome = true := by
  by_cases h1 : cb <;>
    by_cases h2 : (o.toFile || o.toBuffer) = true <;>
    by_cases h3 : (!o.withUpload && !o.withFetch) = true <;>
    simp [toJSONOptions, h1, h2, h3, h]

theorem toFileOptions_errSome (dest : DestArg) {o : Options} (h : o.errorMessage.isSome = true) :
    ∃ o', toFileOptions dest true o = Except.ok o' ∧ o'.errorMessage.isSome = true := by
  cases dest <;>
    by_cases h2 : (o.toJSON || o.toBuffer) = true <;>
    by_cases h3 : (!o.withUpload && !o.withFetch) = true <;>
    by_cases h4 : truthy (getKey o.request "webhook") = true <;>
    by_cases h5 : truthy (getKey o.request "store") = true <;>
    simp [toFileOptions, h2, h3, h4, h5, h]

theorem toBufferOptions_errSome {o : Options} (h : o.errorMessage.isSome = true) :
    ∃ o', toBufferOptions true o = Except.ok o' ∧ o'.errorMessage.isSome = true := by
  by_cases h2 : (o.toJSON || o.toFile) = true <;>
    by_cases h3 : (!o.withUpload && !o.withFetch) = true <;>
    by_cases h4 : truthy (getKey o.request "webhook") = true <;>
    by_cases h5 : truthy (getKey o.request "store") = true <;>
    simp [toBufferOptions, h2, h3, h4, h5, h]

theorem sendRequest_err_of_isSome {o : Options} (rand : List Nat) (evs : List Ev)
    (h : o.errorMessage.isSome = true) :
    ∃ m, o.errorMessage = some m ∧ sendRequest o rand evs = Except.ok (errorOnlyResult m) := by
  obtain ⟨m, hm⟩ := Option.isSome_iff_exists.mp h
  exact ⟨m, hm, sendRequest_err rand evs hm⟩

end Optidash

/-! ### Claim C5 -/

namespace Optidash

/-- Claim C5: when both `upload` and `fetch` have been called on a
builder, in either order and with arbitrary other chained calls around
them, a configuration error is recorded and every terminal sink
dispatches to a single error callback with no side effects — the
dispatcher never proceeds with one of the two transports. -/
theorem C5_both_inputs_error (key : String) (L : List BStep) (f : UploadArg) (u : JVal)
    (dest : DestArg) (rand : List Nat) (evs : List Ev)
    (hU : BStep.uploadStep f ∈ L) (hF : BStep.fetchStep u ∈ L) :
    (applySteps (freshOptions key) L).errorMessage.isSome = true ∧
    (∃ m, (toJSONOptions true (applySteps (freshOptions key) L)).errorMessage = some m ∧
       sendRequest (toJSONOptions true (applySteps (freshOptions key) L)) rand evs =
         Except.ok (errorOnlyResult m)) ∧
    (∃ m o2, toBufferOptions true (applySteps (freshOptions key) L) = Except.ok o2 ∧
       o2.errorMessage = some m ∧
       sendRequest o2 rand evs = Except.ok (errorOnlyResult m)) ∧
    (∃ m o3, toFileOptions dest true (applySteps (freshOptions key) L) = Except.ok o3 ∧
       o3.errorMessage = some m ∧
       sendRequest o3 rand evs = Except.ok (errorOnlyResult m)) := by
  have hb := applySteps_both_inputs_err (freshOptions key) L f u hU hF
  refine ⟨hb, ?_, ?_, ?_⟩
  · obtain ⟨m, hm, hsr⟩ := sendRequest_err_of_isSome rand evs (toJSONOptions_errSome true hb)
    exact ⟨m, hm, hsr⟩
  · obtain ⟨o2, ho2, h2⟩ := toBufferOptions_errSome hb
    obtain ⟨m, hm, hsr⟩ := sendRequest_err_of_isSome rand evs h2
    exact ⟨m, o2, ho2, hm, hsr⟩
  · obtain ⟨o3, ho3, h3⟩ := toFileOptions_errSome dest hb
    obtain ⟨m, hm, hsr⟩ := sendRequest_err_of_isSome rand evs h3
    exact ⟨m, o3, ho3, hm, hsr⟩

/-- Witness for C5: `upload("a")` followed by `fetch("u")` and each sink. -/
theorem C5_witness :
    (applySteps (freshOptions "k")
        [BStep.uploadStep (UploadArg.path "a"), BStep.fetchStep (JVal.str "u")]).errorMessage.isSome = true ∧
    (∃ m, (toJSONOptions true (applySteps (freshOptions "k")
          [BStep.uploadStep (UploadArg.path "a"), BStep.fetchStep (JVal.str "u")])).errorMessage = some m ∧
       sendRequest (toJSONOptions true (applySteps (freshOptions "k")
          [BStep.uploadStep (UploadArg.path "a"), BStep.fetchStep (JVal.str "u")])) [] [] =
         Except.ok (errorOnlyResult m)) ∧
    (∃ m o2, toBufferOptions true (applySteps (freshOptions "k")
          [BStep.uploadStep (UploadArg.path "a"), BStep.fetchStep (JVal.str "u")]) = Except.ok o2 ∧
       o2.errorMessage = some m ∧
       sendRequest o2 [] [] = Except.ok (errorOnlyResult m)) ∧
    (∃ m o3, toFileOptions (DestArg.path "out") true (applySteps (freshOptions "k")
          [BStep.uploadStep (UploadArg.path "a"), BStep.fetchStep (JVal.str "u")]) = Except.ok o3 ∧
       o3.errorMessage = some m ∧
       sendRequest o3 [] [] = Except.ok (errorOnlyResult m)) :=
  C5_both_inputs_error "k" [BStep.uploadStep (UploadArg.path "a"), BStep.fetchStep (JVal.str "u")]
    (UploadArg.path "a") (JVal.str "u") (DestArg.path "out") [] []
    (List.mem_cons_self _ _) (List.mem_cons_of_mem _ (List.mem_cons_self _ _))

end Optidash

/-! ### Claim C6 -/

namespace Optidash

/-- Claim C6 (counterexample to the claim as stated): with a webhook
configured and no file input, `toFile` records the webhook
incompatibility message, not the missing-input message — the later
webhook/store checks overwrite the missing-input error. -/
theorem C6_counterexample :
    (optsOf (toFileOptions (DestArg.path "out") true
        (opSetter "webhook" (JVal.obj []) (freshOptions "k")))).errorMessage
      = some toFileWebhookMsg ∧
    toFileWebhookMsg ≠ noInputMsg :=
  ⟨rfl, by decide⟩

/-- Claim C6 (amended): with no file input configured, every terminal
sink records a configuration error surfaced through the callback; for
`toJSON` the message always references the missing input, while for
`toFile`/`toBuffer` a configured store (or else webhook) takes precedence
with the binary-incompatibility message, and otherwise the missing-input
message is recorded. -/
theorem C6_no_input_error (o : Options) (dest : DestArg)
    (hU : o.withUpload = false) (hF : o.withFetch = false) :
    (toJSONOptions true o).errorMessage = some noInputMsg ∧
    (∃ o2, toBufferOptions true o = Except.ok o2 ∧ o2.errorMessage = some
       (if truthy (getKey o.request "store") = true then toBufferStoreMsg
        else if truthy (getKey o.request "webhook") = true then toBufferWebhookMsg
        else noInputMsg)) ∧
    (∃ o3, toFileOptions dest true o = Except.ok o3 ∧ o3.errorMessage = some
       (if truthy (getKey o.request "store") = true then toFileStoreMsg
        else if truthy (getKey o.request "webhook") = true then toFileWebhookMsg
        else noInputMsg)) := by
  refine ⟨?_, ?_, ?_⟩
  · by_cases h2 : (o.toFile || o.toBuffer) = true <;> simp [toJSONOptions, h2, hU, hF]
  · by_cases h2 : (o.toJSON || o.toFile) = true <;>
      by_cases h4 : truthy (getKey o.request "webhook") = true <;>
      by_cases h5 : truthy (getKey o.request "store") = true <;>
      simp [toBufferOptions, h2, h4, h5, hU, hF]
  · cases dest <;>
      by_cases h2 : (o.toJSON || o.toBuffer) = true <;>
      by_cases h4 : truthy (getKey o.request "webhook") = true <;>
      by_cases h5 : truthy (getKey o.request "store") = true <;>
      simp [toFileOptions, h2, h4, h5, hU, hF]

/-- Witness for the amended C6: a builder with only a webhook configured. -/
theorem C6_witness :
    (toJSONOptions true (opSetter "webhook" (JVal.obj []) (freshOptions "w"))).errorMessage
      = some noInputMsg ∧
    (∃ o2, toBufferOptions true (opSetter "webhook" (JVal.obj []) (freshOptions "w")) = Except.ok o2 ∧
       o2.errorMessage = some
       (if truthy (getKey (opSetter "webhook" (JVal.obj []) (freshOptions "w")).request "store") = true
        then toBufferStoreMsg
        else if truthy (getKey (opSetter "webhook" (JVal.obj []) (freshOptions "w")).request "webhook") = true
        then toBufferWebhookMsg
        else noInputMsg)) ∧
    (∃ o3, toFileOptions (DestArg.path "out") true (opSetter "webhook" (JVal.obj []) (freshOptions "w")) = Except.ok o3 ∧
       o3.errorMessage = some
       (if truthy (getKey (opSetter "webhook" (JVal.obj []) (freshOptions "w")).request "store") = true
        then toFileStoreMsg
        else if truthy (getKey (opSetter "webhook" (JVal.obj []) (freshOptions "w")).request "webhook") = true
        then toFileWebhookMsg
        else noInputMsg)) :=
  C6_no_input_error (opSetter "webhook" (JVal.obj []) (freshOptions "w")) (DestArg.path "out") rfl rfl

/-! ### Claim C7 -/

/-- Claim C7 (code bug): an upload dispatch with a `Buffer` source never
proceeds.  The client calls `crypto.randomBytes(8).toSting("hex")` —
`toSting` is not a method of the random-bytes value (a typo for
`toString`) — so the dispatch throws a `TypeError` instead of building
the multipart part with a random hexadecimal filename.  Moreover the
builder itself already records a shape error for a `Buffer` argument,
since a `Buffer` is neither a string nor a stream. -/
theorem C7_buffer_upload_throws (bytes rand : List Nat) (evs : List Ev) (key : String) :
    sendRequest { freshOptions key with
        withUpload := true, file := some (UploadArg.buffer bytes), toJSON := true } rand evs
      = Except.error (JsErr.typeError "toSting is not a function") ∧
    (upload (UploadArg.buffer bytes) (freshOptions key)).errorMessage = some uploadShapeMsg :=
  ⟨rfl, rfl⟩

/-! ### Claim C8 -/

/-- Claim C8 (counterexample to the claim as stated): `toFile` with a
destination that is neither a string nor a stream but with a valid
callback does not throw — the shape error is recorded for the callback
instead. -/
theorem C8_counterexample :
    isThrow (toFileOptions DestArg.invalid true (upload (UploadArg.path "a") (freshOptions "k"))) = false ∧
    (optsOf (toFileOptions DestArg.invalid true (upload (UploadArg.path "a") (freshOptions "k")))).errorMessage
      = some toFileShapeMsg :=
  ⟨rfl, rfl⟩

/-- Claim C8 (amended): only a non-function callback makes `toFile` or
`toBuffer` throw synchronously; an invalid `toFile` destination with a
valid callback is recorded as a deferred configuration error and
surfaced through the callback like every other configuration error. -/
theorem C8_sync_throw_scope (dest : DestArg) (o1 o2 o : Options) (rand : List Nat) (evs : List Ev)
    (h1 : o.toJSON = false) (h2 : o.toBuffer = false) (h3 : o.withUpload = true)
    (h4 : truthy (getKey o.request "webhook") = false)
    (h5 : truthy (getKey o.request "store") = false) :
    toFileOptions dest false o1 = Except.error (JsErr.jsError toFileCbMsg) ∧
    toBufferOptions false o2 = Except.error (JsErr.jsError toBufferCbMsg) ∧
    (∃ o', toFileOptions DestArg.invalid true o = Except.ok o' ∧
       o'.errorMessage = some toFileShapeMsg ∧
       sendRequest o' rand evs = Except.ok (errorOnlyResult toFileShapeMsg)) := by
  refine ⟨rfl, rfl, ?_⟩
  have hcomp : ∃ o', toFileOptions DestArg.invalid true o = Except.ok o' ∧
      o'.errorMessage = some toFileShapeMsg := by
    simp [toFileOptions, h1, h2, h3, h4, h5]
  obtain ⟨o', ho', he⟩ := hcomp
  exact ⟨o', ho', he, sendRequest_err rand evs he⟩

/-- Witness for the amended C8 at concrete builders. -/
theorem C8_witness :
    toFileOptions DestArg.wstream false (freshOptions "a") = Except.error (JsErr.jsError toFileCbMsg) ∧
    toBufferOptions false (freshOptions "b") = Except.error (JsErr.jsError toBufferCbMsg) ∧
    (∃ o', toFileOptions DestArg.invalid true (upload (UploadArg.path "p") (freshOptions "c")) = Except.ok o' ∧
       o'.errorMessage = some toFileShapeMsg ∧
       sendRequest o' [] [] = Except.ok (errorOnlyResult toFileShapeMsg)) :=
  C8_sync_throw_scope DestArg.wstream (freshOptions "a") (freshOptions "b")
    (upload (UploadArg.path "p") (freshOptions "c")) [] [] rfl rfl rfl rfl rfl

end Optidash

/-! ### Claim C10 -/

namespace Optidash

theorem getKey_setKey (k : String) (v : JVal) (l : List (String × JVal)) :
    getKey (setKey k v l) k = v := by
  induction l with
  | nil => simp [setKey, getKey]
  | cons p rest ih =>
      obtain ⟨k', v'⟩ := p
      by_cases h : (k' == k) = true
      · simp [setKey, getKey, h]
      · simp only [setKey, h]
        simp only [Bool.false_eq_true, if_false]
        simpa [getKey, List.find?, h] using ih

theorem opSetter_null (k : String) (o : Options) :
    getKey ((opSetter k JVal.null o).request) k = JVal.null := by
  simp only [opSetter, jsTypeof]
  simp [getKey_setKey]

theorem opSetter_str (k : String) (s : String) (o : Options) :
    opSetter k (JVal.str s) o = o := by
  simp [opSetter, jsTypeof]

theorem opSetter_num (k : String) (n : Int) (o : Options) :
    opSetter k (JVal.num n) o = o := by
  simp [opSetter, jsTypeof]

/-- Claim C10: every operation setter guards only on
`typeof data === "object"`, so a `null` argument is stored verbatim under
the operation key (not a no-op), while string or number arguments leave
the builder unchanged — for all sixteen setters. -/
theorem C10_setter_typeof_guard (o : Options) (s : String) (n : Int) :
    (getKey ((optimize JVal.null o).request) "optimize" = JVal.null ∧
       optimize (JVal.str s) o = o ∧ optimize (JVal.num n) o = o) ∧
    (getKey ((flip JVal.null o).request) "flip" = JVal.null ∧
       flip (JVal.str s) o = o ∧ flip (JVal.num n) o = o) ∧
    (getKey ((resize JVal.null o).request) "resize" = JVal.null ∧
       resize (JVal.str s) o = o ∧ resize (JVal.num n) o = o) ∧
    (getKey ((scale JVal.null o).request) "scale" = JVal.null ∧
       scale (JVal.str s) o = o ∧ scale (JVal.num n) o = o) ∧
    (getKey ((crop JVal.null o).request) "crop" = JVal.null ∧
       crop (JVal.str s) o = o ∧ crop (JVal.num n) o = o) ∧
    (getKey ((watermark JVal.null o).request) "watermark" = JVal.null ∧
       watermark (JVal.str s) o = o ∧ watermark (JVal.num n) o = o) ∧
    (getKey ((mask JVal.null o).request) "mask" = JVal.null ∧
       mask (JVal.str s) o = o ∧ mask (JVal.num n) o = o) ∧
    (getKey ((filter JVal.null o).request) "filter" = JVal.null ∧
       filter (JVal.str s) o = o ∧ filter (JVal.num n) o = o) ∧
    (getKey ((adjust JVal.null o).request) "adjust" = JVal.null ∧
       adjust (JVal.str s) o = o ∧ adjust (JVal.num n) o = o) ∧
    (getKey ((auto JVal.null o).request) "auto" = JVal.null ∧
       auto (JVal.str s) o = o ∧ auto (JVal.num n) o = o) ∧
    (getKey ((border JVal.null o).request) "border" = JVal.null ∧
       border (JVal.str s) o = o ∧ border (JVal.num n) o = o) ∧
    (getKey ((padding JVal.null o).request) "padding" = JVal.null ∧
       padding (JVal.str s) o = o ∧ padding (JVal.num n) o = o) ∧
    (getKey ((store JVal.null o).request) "store" = JVal.null ∧
       store (JVal.str s) o = o ∧ store (JVal.num n) o = o) ∧
    (getKey ((output JVal.null o).request) "output" = JVal.null ∧
       output (JVal.str s) o = o ∧ output (JVal.num n) o = o) ∧
    (getKey ((webhook JVal.null o).request) "webhook" = JVal.null ∧
       webhook (JVal.str s) o = o ∧ webhook (JVal.num n) o = o) ∧
    (getKey ((cdn JVal.null o).request) "cdn" = JVal.null ∧
       cdn (JVal.str s) o = o ∧ cdn (JVal.num n) o = o) :=
  ⟨⟨opSetter_null _ _, opSetter_str _ _ _, opSetter_num _ _ _⟩,
   ⟨opSetter_null _ _, opSetter_str _ _ _, opSetter_num _ _ _⟩,
   ⟨opSetter_null _ _, opSetter_str _ _ _, opSetter_num _ _ _⟩,
   ⟨opSetter_null _ _, opSetter_str _ _ _, opSetter_num _ _ _⟩,
   ⟨opSetter_null _ _, opSetter_str _ _ _, opSetter_num _ _ _⟩,
   ⟨opSetter_null _ _, opSetter_str _ _ _, opSetter_num _ _ _⟩,
   ⟨opSetter_null _ _, opSetter_str _ _ _, opSetter_num _ _ _⟩,
   ⟨opSetter_null _ _, opSetter_str _ _ _, opSetter_num _ _ _⟩,
   ⟨opSetter_null _ _, opSetter_str _ _ _, opSetter_num _ _ _⟩,
   ⟨opSetter_null _ _, opSetter_str _ _ _, opSetter_num _ _ _⟩,
   ⟨opSetter_null _ _, opSetter_str _ _ _, opSetter_num _ _ _⟩,
   ⟨opSetter_null _ _, opSetter_str _ _ _, opSetter_num _ _ _⟩,
   ⟨opSetter_null _ _, opSetter_str _ _ _, opSetter_num _ _ _⟩,
   ⟨opSetter_null _ _, opSetter_str _ _ _, opSetter_num _ _ _⟩,
   ⟨opSetter_null _ _, opSetter_str _ _ _, opSetter_num _ _ _⟩,
   ⟨opSetter_null _ _, opSetter_str _ _ _, opSetter_num _ _ _⟩⟩

end Optidash
